import Mathlib

/-!
Verification development for the mesc configuration library.

Rust strings are modelled as `List Char` (UTF-8 byte-wise order on Rust
strings coincides with code-point lexicographic order, so comparing chars
by code point is faithful). Rust `Ordering` is Lean's `Ordering`, and
fallible Rust functions returning `Result<T, MescError>` are modelled as
`Except MescError T`.
-/

namespace Mesc

/-- Model of Rust `char::is_ascii_digit`: the character lies in the ASCII
range '0' (code 48) to '9' (code 57). -/
def isAsciiDigit (c : Char) : Bool := 48 ≤ c.toNat && c.toNat ≤ 57

/-- Comparison of two characters by code point, as Rust compares the bytes
of their UTF-8 encodings. -/
def charCmp (a b : Char) : Ordering := compare a.toNat b.toNat

/-- Model of Rust `str::cmp`: lexicographic comparison, a strict prefix
compares less. -/
def listCmp : List Char → List Char → Ordering
  | [], [] => .eq
  | [], _ :: _ => .lt
  | _ :: _, [] => .gt
  | a :: s, b :: t =>
    match charCmp a b with
    | .lt => .lt
    | .gt => .gt
    | .eq => listCmp s t

/-- Decimal digit `d` rendered as a character, as Rust's integer Display
renders digits. -/
def digitChar (d : Nat) : Char := Char.ofNat (48 + d)

/-- Big-endian base-10 digit list of a natural number (`[0]` for zero),
matching the digit sequence Rust's `u8..u128/usize` Display emits. -/
def digitsBE (n : Nat) : List Nat :=
  if n = 0 then [0] else (Nat.digits 10 n).reverse

/-- Model of Rust `ToString for` the unsigned integer types: canonical
decimal rendering, no leading zeros, `"0"` for zero. -/
def natToString (n : Nat) : List Char := (digitsBE n).map digitChar

/-- Model of the Rust struct `ChainId(String)`
(src/rust/crates/mesc/src/types.rs line 106). Equality is structural on
the underlying string, as the derived `PartialEq`/`Eq`. -/
structure ChainId where
  inner : List Char
deriving DecidableEq

/-- Model of `ChainId::null_chain_id` (types.rs lines 109-111). -/
def ChainId.null_chain_id : ChainId := ⟨['0']⟩

/-- Left-pad a string to width 79 with the fill character `f`. -/
def padTo79 (f : Char) (s : List Char) : List Char :=
  List.replicate (79 - s.length) f ++ s

/-- Model of `impl Ord for ChainId` (types.rs lines 120-127). The Rust code
formats both strings with the format spec `:>079`. For a string argument
the `0` there is parsed as the sign-aware-zero-pad flag, which
`Formatter::pad` (the method `str`'s Display uses) ignores; the fill
character remains the default space, so the code right-aligns each string
in width 79 padding with SPACES, then compares lexicographically. -/
def ChainId.cmp (a b : ChainId) : Ordering :=
  listCmp (padTo79 ' ' a.inner) (padTo79 ' ' b.inner)

/-- Modelled from the spec: the comparison the spec describes for ChainId,
zero-padding on the left (fill character '0') to width 79 and then
comparing lexicographically. Kept separate from `ChainId.cmp`, which
models the source. -/
def specZeroPadCmp (a b : ChainId) : Ordering :=
  listCmp (padTo79 '0' a.inner) (padTo79 '0' b.inner)

/-- Stand-in for the foreign type `std::io::Error` carried by
`MescError::IOError`; its structure is irrelevant to this development. -/
structure IoError where
  code : Nat
deriving DecidableEq

/-- Stand-in for the foreign type `std::env::VarError` carried by
`MescError::EnvReadError`. -/
structure VarError where
  code : Nat
deriving DecidableEq

/-- Stand-in for the foreign type `serde_json::Error` carried by
`MescError::SerdeError`. -/
structure SerdeJsonError where
  message : List Char
deriving DecidableEq

/-- Model of the Rust enum `MescError` (types.rs lines 70-83). -/
inductive MescError where
  | MescNotEnabled
  | InvalidConfigMode
  | InvalidChainId (raw : List Char)
  | IntegrityError (detail : List Char)
  | MissingEndpoint (detail : List Char)
  | IOError (e : IoError)
  | InvalidJson
  | EnvReadError (e : VarError)
  | NotImplemented (feature : List Char)
  | SerdeError (e : SerdeJsonError)
  | InvalidInput
deriving DecidableEq

/-- Model of `impl From<serde_json::Error> for MescError`
(types.rs lines 91-95): the foreign parse error is wrapped in the
`SerdeError` variant. -/
def mescErrorFromSerdeJson (e : SerdeJsonError) : MescError := .SerdeError e

/-- Model of `impl TryIntoChainId for String` (types.rs lines 161-169);
the `&str` impl (lines 171-179) behaves identically after its
`to_string()` copies. -/
def tryIntoChainId (s : List Char) : Except MescError ChainId :=
  if s.all isAsciiDigit then .ok ⟨s⟩ else .error (.InvalidChainId s)

/-- Model of `impl From<uN> for ChainId` and `TryIntoChainId` for the
unsigned integer types (types.rs lines 136-148 and 181-193): always
succeeds with the decimal rendering of the integer. -/
def chainIdFromUint (n : Nat) : ChainId := ⟨natToString n⟩

/-- Model of `impl TryIntoChainId for &[u8]` (types.rs lines 195-199):
unconditionally fails with `NotImplemented("binary chain_id")`. Bytes are
modelled as naturals. -/
def tryIntoChainIdBytes (_bs : List Nat) : Except MescError ChainId :=
  .error (.NotImplemented ("binary chain_id".data))

/-- Model of the Rust struct `EndpointQuery` (types.rs lines 201-206) with
the derived `Default` (all fields absent). -/
structure EndpointQuery where
  chain_id : Option ChainId := none
  name_contains : Option (List Char) := none
  url_contains : Option (List Char) := none
deriving DecidableEq

/-- Model of `EndpointQuery::new` (types.rs lines 209-211). -/
def EndpointQuery.new : EndpointQuery := {}

/-- Model of the builder setter `EndpointQuery::chain_id`
(types.rs lines 213-216), instantiated at the fallible `String` conversion
(the interesting case; the integer instances cannot fail). Named with a
prime because the structure field `chain_id` takes the bare name. -/
def EndpointQuery.chain_id' (q : EndpointQuery) (c : List Char) :
    Except MescError EndpointQuery :=
  match tryIntoChainId c with
  | .ok cid => .ok { q with chain_id := some cid }
  | .error e => .error e

/-- Model of the builder setter `EndpointQuery::name`
(types.rs lines 218-221). -/
def EndpointQuery.name (q : EndpointQuery) (s : List Char) :
    Except MescError EndpointQuery :=
  .ok { q with name_contains := some s }

/-- Model of the builder setter `EndpointQuery::url`
(types.rs lines 223-226). -/
def EndpointQuery.url (q : EndpointQuery) (s : List Char) :
    Except MescError EndpointQuery :=
  .ok { q with url_contains := some s }

/-! Basic facts about decimal renderings. -/

theorem digitChar_toNat {d : Nat} (hd : d < 10) : (digitChar d).toNat = 48 + d := by
  interval_cases d <;> decide

theorem isAsciiDigit_digitChar {d : Nat} (hd : d < 10) :
    isAsciiDigit (digitChar d) = true := by
  simp only [isAsciiDigit, digitChar_toNat hd, Bool.and_eq_true, decide_eq_true_eq]
  omega

theorem digitsBE_lt {n : Nat} : ∀ d ∈ digitsBE n, d < 10 := by
  intro d hd
  unfold digitsBE at hd
  split at hd
  · simp at hd; omega
  · exact Nat.digits_lt_base (by norm_num) (List.mem_reverse.mp hd)

theorem digitsBE_ne_nil (n : Nat) : digitsBE n ≠ [] := by
  unfold digitsBE
  split
  · simp
  · simp only [ne_eq, List.reverse_eq_nil_iff]
    exact Nat.digits_ne_nil_iff_ne_zero.mpr (by assumption)

theorem natToString_ne_nil (n : Nat) : natToString n ≠ [] := by
  simp [natToString, digitsBE_ne_nil n]

theorem natToString_all_digits (n : Nat) :
    (natToString n).all isAsciiDigit = true := by
  rw [List.all_eq_true]
  intro c hc
  rw [natToString, List.mem_map] at hc
  obtain ⟨d, hd, rfl⟩ := hc
  exact isAsciiDigit_digitChar (digitsBE_lt d hd)

/-! Claim theorems for the string and byte construction paths, the error
wrapping, and the query builder. -/

/-- Claim C2: constructing a ChainId from a string fails with
`InvalidChainId` carrying exactly the original input if and only if some
character is not an ASCII digit; otherwise it succeeds and wraps the input
string unchanged. -/
theorem tryIntoChainId_invalid_iff (s : List Char) :
    (tryIntoChainId s = .error (.InvalidChainId s) ↔
      ¬ (∀ c ∈ s, isAsciiDigit c = true)) ∧
    (tryIntoChainId s = .ok ⟨s⟩ ↔ (∀ c ∈ s, isAsciiDigit c = true)) := by
  by_cases h : s.all isAsciiDigit = true
  · have h' := List.all_eq_true.mp h
    simp only [tryIntoChainId, if_pos h]
    refine ⟨⟨fun he => ?_, fun hc => absurd h' hc⟩, ⟨fun _ => h', fun _ => trivial⟩⟩
    simp at he
  · have h' : ¬ ∀ c ∈ s, isAsciiDigit c = true :=
      fun hc => h (List.all_eq_true.mpr hc)
    simp [tryIntoChainId, h, h']

/-- Claim C5, counterexample: construction from the empty string succeeds
(the `all` check is vacuously true), producing a ChainId with an empty
underlying string, contrary to the claimed non-emptiness invariant. -/
theorem tryIntoChainId_empty_ok : tryIntoChainId [] = .ok ⟨[]⟩ := rfl

/-- Claim C5 (amended): every ChainId produced through the public
construction paths has an all-ASCII-digit underlying string, and the
unsigned-integer path additionally yields a non-empty string; the
non-emptiness invariant does not hold for the string path, which accepts
the empty string. -/
theorem chainId_construction_digit_invariant :
    (∀ (s : List Char) (cid : ChainId), tryIntoChainId s = .ok cid →
      cid.inner.all isAsciiDigit = true) ∧
    (∀ n : Nat, (chainIdFromUint n).inner.all isAsciiDigit = true ∧
      (chainIdFromUint n).inner ≠ []) := by
  constructor
  · intro s cid h
    unfold tryIntoChainId at h
    split at h
    · cases h
      assumption
    · cases h
  · intro n
    exact ⟨natToString_all_digits n, natToString_ne_nil n⟩

/-- Witness for claim C5's amended theorem at the concrete inputs "12" and
the unsigned integer 5. -/
theorem chainId_construction_digit_invariant_witness :
    (ChainId.mk ['1', '2']).inner.all isAsciiDigit = true ∧
    (chainIdFromUint 5).inner ≠ [] :=
  ⟨chainId_construction_digit_invariant.1 ['1', '2'] ⟨['1', '2']⟩ rfl,
   (chainId_construction_digit_invariant.2 5).2⟩

/-- Claim C6, counterexample: wrapping a JSON parse failure through the
library's From conversion yields the `SerdeError` variant, not
`InvalidJson`, refuting the claim at a concrete parse error. -/
theorem serde_error_not_invalid_json :
    mescErrorFromSerdeJson ⟨[]⟩ ≠ MescError.InvalidJson := by decide

/-- Claim C6 (amended): every JSON parse failure converted through the
library's `From` impl is wrapped as `MescError::SerdeError` carrying the
original foreign error (so no foreign type escapes the library's error
type), and is never the `InvalidJson` variant. -/
theorem serde_error_wrapping (e : SerdeJsonError) :
    mescErrorFromSerdeJson e = MescError.SerdeError e ∧
    mescErrorFromSerdeJson e ≠ MescError.InvalidJson :=
  ⟨rfl, by simp [mescErrorFromSerdeJson]⟩

/-- Claim C7: the EndpointQuery builder setters are independent and
commutative; for fixed arguments, the two orders of applying any two
distinct setters produce the same final query and the same
success/failure outcome, hence any permutation of any subset of the three
setters agrees. -/
theorem endpointQuery_setters_commute (q : EndpointQuery) (c s u : List Char) :
    ((q.chain_id' c).bind (fun q' => q'.name s) =
      (q.name s).bind (fun q' => q'.chain_id' c)) ∧
    ((q.chain_id' c).bind (fun q' => q'.url u) =
      (q.url u).bind (fun q' => q'.chain_id' c)) ∧
    ((q.name s).bind (fun q' => q'.url u) =
      (q.url u).bind (fun q' => q'.name s)) := by
  unfold EndpointQuery.chain_id' EndpointQuery.name EndpointQuery.url tryIntoChainId
  by_cases h : c.all isAsciiDigit = true <;> simp [h, Except.bind]

/-- Claim C8: converting a byte array into a ChainId always fails with
`NotImplemented("binary chain_id")`, for every input, including byte
arrays consisting of ASCII digit bytes. -/
theorem tryIntoChainIdBytes_always_not_implemented (bs : List Nat) :
    tryIntoChainIdBytes bs = .error (.NotImplemented ("binary chain_id".data)) :=
  rfl

/-- Claim C10: the `name` and `url` setters never fail; each sets exactly
its own field to the given string and leaves the other two fields
unchanged. -/
theorem endpointQuery_name_url_total (q : EndpointQuery) (s : List Char) :
    q.name s = .ok ⟨q.chain_id, some s, q.url_contains⟩ ∧
    q.url s = .ok ⟨q.chain_id, q.name_contains, some s⟩ :=
  ⟨rfl, rfl⟩

/-! Lemmas about the lexicographic comparison and left padding. -/

theorem nat_compare_add_left (c x y : Nat) : compare (c + x) (c + y) = compare x y := by
  rcases Nat.lt_trichotomy x y with h | h | h
  · rw [Nat.compare_eq_lt.mpr h, Nat.compare_eq_lt.mpr (by omega)]
  · subst h
    rw [Nat.compare_eq_eq.mpr rfl, Nat.compare_eq_eq.mpr rfl]
  · rw [Nat.compare_eq_gt.mpr h, Nat.compare_eq_gt.mpr (by omega)]

theorem charCmp_self (c : Char) : charCmp c c = .eq := by
  simp [charCmp, Nat.compare_eq_eq]

theorem charCmp_lt {a b : Char} (h : a.toNat < b.toNat) : charCmp a b = .lt := by
  simp [charCmp, Nat.compare_eq_lt, h]

theorem charCmp_swap (a b : Char) : (charCmp a b).swap = charCmp b a := by
  simp [charCmp, Nat.compare_swap]

theorem listCmp_append_left (r s t : List Char) :
    listCmp (r ++ s) (r ++ t) = listCmp s t := by
  induction r with
  | nil => rfl
  | cons a r ih => simp [listCmp, charCmp_self, ih]

theorem listCmp_cons_lt {a b : Char} (s t : List Char) (h : charCmp a b = .lt) :
    listCmp (a :: s) (b :: t) = .lt := by
  simp [listCmp, h]

theorem listCmp_swap (s t : List Char) : (listCmp s t).swap = listCmp t s := by
  induction s generalizing t with
  | nil => cases t <;> rfl
  | cons a s ih =>
    cases t with
    | nil => rfl
    | cons b t =>
      have hswap := charCmp_swap a b
      rcases hc : charCmp a b with _ | _ | _ <;> rw [hc] at hswap
      · have hba : charCmp b a = .gt := by rw [← hswap]; rfl
        simp [listCmp, hc, hba, Ordering.swap]
      · have hba : charCmp b a = .eq := by rw [← hswap]; rfl
        simp [listCmp, hc, hba, ih]
      · have hba : charCmp b a = .lt := by rw [← hswap]; rfl
        simp [listCmp, hc, hba, Ordering.swap]

theorem padTo79_of_le {s : List Char} (f : Char) (h : 79 ≤ s.length) :
    padTo79 f s = s := by
  simp [padTo79, Nat.sub_eq_zero_of_le h]

theorem padCmp_eq_of_length_eq (f : Char) {s t : List Char}
    (h : s.length = t.length) :
    listCmp (padTo79 f s) (padTo79 f t) = listCmp s t := by
  unfold padTo79
  rw [h, listCmp_append_left]

theorem padCmp_lt_of_length_lt (f : Char) {s t : List Char} {c : Char}
    {t' : List Char} (ht : t = c :: t') (hf : f.toNat < c.toNat)
    (hlen : s.length < t.length) (h79 : t.length ≤ 79) :
    listCmp (padTo79 f s) (padTo79 f t) = .lt := by
  subst ht
  have hdecomp : 79 - s.length =
      (79 - (c :: t').length) + ((c :: t').length - s.length) := by
    simp only [List.length_cons] at *
    omega
  rw [padTo79, padTo79, hdecomp, List.replicate_add, List.append_assoc,
    listCmp_append_left]
  have hpos : (c :: t').length - s.length =
      ((c :: t').length - s.length - 1) + 1 := by
    simp only [List.length_cons] at *
    omega
  rw [hpos, List.replicate_succ]
  exact listCmp_cons_lt _ _ (charCmp_lt hf)

theorem padCmp_lt_of_long_right (f : Char) {s t : List Char} {c : Char}
    {t' : List Char} (ht : t = c :: t') (hf : f.toNat < c.toNat)
    (hs : s.length < 79) (h79 : 79 < t.length) :
    listCmp (padTo79 f s) (padTo79 f t) = .lt := by
  subst ht
  rw [padTo79_of_le f (le_of_lt h79)]
  have hpos : 79 - s.length = (79 - s.length - 1) + 1 := by omega
  rw [padTo79, hpos, List.replicate_succ]
  exact listCmp_cons_lt _ _ (charCmp_lt hf)

/-! Numeric value of big-endian digit strings, and the correspondence
between lexicographic comparison of equal-length digit strings and
comparison of their values. -/

def ofDigitsBE (l : List Nat) : Nat := l.foldl (fun acc d => 10 * acc + d) 0

theorem foldl_digits_acc (l : List Nat) (a : Nat) :
    l.foldl (fun acc d => 10 * acc + d) a = a * 10 ^ l.length + ofDigitsBE l := by
  induction l generalizing a with
  | nil => simp [ofDigitsBE]
  | cons d l ih =>
    show l.foldl _ (10 * a + d) = _
    rw [ih (10 * a + d)]
    have : ofDigitsBE (d :: l) = l.foldl (fun acc d => 10 * acc + d) d := by
      simp [ofDigitsBE]
    rw [this, ih d, List.length_cons]
    ring

theorem ofDigitsBE_cons (d : Nat) (l : List Nat) :
    ofDigitsBE (d :: l) = d * 10 ^ l.length + ofDigitsBE l := by
  have h : ofDigitsBE (d :: l) = l.foldl (fun acc d => 10 * acc + d) d := by
    simp [ofDigitsBE]
  rw [h, foldl_digits_acc l d]

theorem ofDigitsBE_lt (l : List Nat) (hl : ∀ d ∈ l, d < 10) :
    ofDigitsBE l < 10 ^ l.length := by
  induction l with
  | nil => simp [ofDigitsBE]
  | cons d l ih =>
    rw [ofDigitsBE_cons, List.length_cons]
    have hd : d < 10 := hl d (by simp)
    have ht := ih (fun x hx => hl x (by simp [hx]))
    have h1 : d * 10 ^ l.length + ofDigitsBE l < (d + 1) * 10 ^ l.length := by
      have : (d + 1) * 10 ^ l.length = d * 10 ^ l.length + 10 ^ l.length := by ring
      omega
    have h2 : (d + 1) * 10 ^ l.length ≤ 10 * 10 ^ l.length :=
      Nat.mul_le_mul_right _ (by omega)
    have h3 : 10 * 10 ^ l.length = 10 ^ (l.length + 1) := by ring
    omega

theorem ofDigitsBE_append_singleton (r : List Nat) (d : Nat) :
    ofDigitsBE (r ++ [d]) = 10 * ofDigitsBE r + d := by
  simp [ofDigitsBE, List.foldl_append]

theorem ofDigitsBE_reverse (l : List Nat) :
    ofDigitsBE l.reverse = Nat.ofDigits 10 l := by
  induction l with
  | nil => rfl
  | cons d l ih =>
    rw [List.reverse_cons, ofDigitsBE_append_singleton, ih, Nat.ofDigits_cons]
    omega

theorem ofDigitsBE_digitsBE (n : Nat) : ofDigitsBE (digitsBE n) = n := by
  unfold digitsBE
  split
  · simp [ofDigitsBE]
    omega
  · rw [ofDigitsBE_reverse, Nat.ofDigits_digits]

theorem listCmp_map_digitChar {s t : List Nat} (hlen : s.length = t.length)
    (hs : ∀ d ∈ s, d < 10) (ht : ∀ d ∈ t, d < 10) :
    listCmp (s.map digitChar) (t.map digitChar) =
      compare (ofDigitsBE s) (ofDigitsBE t) := by
  induction s generalizing t with
  | nil =>
    cases t with
    | nil =>
      show Ordering.eq = compare (ofDigitsBE []) (ofDigitsBE [])
      exact (Nat.compare_eq_eq.mpr rfl).symm
    | cons b t => simp at hlen
  | cons a s ih =>
    cases t with
    | nil => simp at hlen
    | cons b t =>
      have hlen' : s.length = t.length := by simpa using hlen
      have ha : a < 10 := hs a (by simp)
      have hb : b < 10 := ht b (by simp)
      have hs' : ∀ d ∈ s, d < 10 := fun d hd => hs d (by simp [hd])
      have ht' : ∀ d ∈ t, d < 10 := fun d hd => ht d (by simp [hd])
      have hcc : charCmp (digitChar a) (digitChar b) = compare a b := by
        rw [charCmp, digitChar_toNat ha, digitChar_toNat hb, nat_compare_add_left]
      have hos := ofDigitsBE_lt s hs'
      have hot := ofDigitsBE_lt t ht'
      simp only [List.map_cons, listCmp, hcc, ofDigitsBE_cons, hlen']
      rcases Nat.lt_trichotomy a b with h | h | h
      · rw [Nat.compare_eq_lt.mpr h]
        have hv : a * 10 ^ t.length + ofDigitsBE s <
            b * 10 ^ t.length + ofDigitsBE t := by
          have hstep : (a + 1) * 10 ^ t.length ≤ b * 10 ^ t.length :=
            Nat.mul_le_mul_right _ (by omega)
          have hsucc : (a + 1) * 10 ^ t.length =
              a * 10 ^ t.length + 10 ^ t.length := by ring
          rw [hlen'] at hos
          omega
        rw [Nat.compare_eq_lt.mpr hv]
      · subst h
        rw [Nat.compare_eq_eq.mpr rfl, nat_compare_add_left]
        exact ih hlen' hs' ht'
      · rw [Nat.compare_eq_gt.mpr h]
        have hv : b * 10 ^ t.length + ofDigitsBE t <
            a * 10 ^ t.length + ofDigitsBE s := by
          have hstep : (b + 1) * 10 ^ t.length ≤ a * 10 ^ t.length :=
            Nat.mul_le_mul_right _ (by omega)
          have hsucc : (b + 1) * 10 ^ t.length =
              b * 10 ^ t.length + 10 ^ t.length := by ring
          omega
        rw [Nat.compare_eq_gt.mpr hv]

/-! Length and leading-digit facts for canonical decimal renderings. -/

theorem digitsBE_length_mono {m n : Nat} (h : m ≤ n) :
    (digitsBE m).length ≤ (digitsBE n).length := by
  by_cases hm : m = 0 <;> by_cases hn : n = 0 <;>
    simp only [digitsBE, hm, hn, if_pos, if_neg, ite_true, ite_false,
      List.length_reverse, List.length_singleton]
  · exact Nat.le_refl _
  · have hne := (Nat.digits_ne_nil_iff_ne_zero (b := 10)).mpr hn
    exact List.length_pos.mpr hne
  · omega
  · exact Nat.le_digits_len_le 10 m n h

theorem digitsBE_length_le {n k : Nat} (hk : 1 ≤ k) (h : n < 10 ^ k) :
    (digitsBE n).length ≤ k := by
  by_cases hn : n = 0
  · simp only [digitsBE, hn, ite_true, List.length_singleton]
    omega
  · simp only [digitsBE, if_neg hn, List.length_reverse]
    rw [Nat.digits_len 10 n (by norm_num) hn]
    have := Nat.log_lt_of_lt_pow hn h
    omega

theorem natToString_length (n : Nat) :
    (natToString n).length = (digitsBE n).length := by
  simp [natToString]

theorem natToString_head (n : Nat) :
    ∃ d t', natToString n = digitChar d :: t' ∧ d < 10 ∧ (n ≠ 0 → 1 ≤ d) := by
  by_cases hn : n = 0
  · refine ⟨0, [], ?_, by omega, fun h => absurd hn h⟩
    simp [natToString, digitsBE, hn]
  · have hne := (Nat.digits_ne_nil_iff_ne_zero (b := 10)).mpr hn
    rcases hr : (Nat.digits 10 n).reverse with _ | ⟨d, r⟩
    · exact absurd (List.reverse_eq_nil_iff.mp hr) hne
    · refine ⟨d, r.map digitChar, ?_, ?_, fun _ => ?_⟩
      · simp [natToString, digitsBE, hn, hr]
      · have hmem : d ∈ (Nat.digits 10 n).reverse := by
          rw [hr]
          exact List.mem_cons_self d r
        exact Nat.digits_lt_base (by norm_num) (List.mem_reverse.mp hmem)
      · have hlast : (Nat.digits 10 n).getLast hne ≠ 0 :=
          Nat.getLast_digit_ne_zero 10 hn
        have hhd : (Nat.digits 10 n).reverse.head? = some d := by
          rw [hr]
          rfl
        rw [List.head?_reverse] at hhd
        have := List.getLast?_eq_getLast (Nat.digits 10 n) hne
        rw [this] at hhd
        have : (Nat.digits 10 n).getLast hne = d := by
          injection hhd
        omega

/-! Claim theorems about the ChainId ordering. -/

/-- Claim C1: for non-negative integers a less than b, each rendered as a
canonical decimal string of at most 79 digits, the ChainId built from a's
string compares strictly less than the ChainId built from b's string
under the code's total order, regardless of the strings' lengths. -/
theorem chainId_cmp_respects_numeric_order (a b : Nat) (hab : a < b)
    (hb : b < 10 ^ 79) :
    ChainId.cmp ⟨natToString a⟩ ⟨natToString b⟩ = .lt := by
  have hlb : (digitsBE b).length ≤ 79 := digitsBE_length_le (by norm_num) hb
  have hla : (digitsBE a).length ≤ (digitsBE b).length :=
    digitsBE_length_mono (le_of_lt hab)
  show listCmp (padTo79 ' ' (natToString a)) (padTo79 ' ' (natToString b)) = .lt
  rcases Nat.lt_or_ge (natToString a).length (natToString b).length with hlt | hge
  · obtain ⟨d, t', hhead, hd10, _⟩ := natToString_head b
    have hsp : (' ').toNat < (digitChar d).toNat := by
      rw [digitChar_toNat hd10]
      have hspace : (' ').toNat = 32 := rfl
      omega
    exact padCmp_lt_of_length_lt ' ' hhead hsp hlt
      (by rw [natToString_length]; omega)
  · have heq : (natToString a).length = (natToString b).length := by
      rw [natToString_length, natToString_length] at *
      omega
    rw [padCmp_eq_of_length_eq ' ' heq, natToString, natToString,
      listCmp_map_digitChar (by rw [natToString_length, natToString_length] at heq; exact heq)
        digitsBE_lt digitsBE_lt,
      ofDigitsBE_digitsBE, ofDigitsBE_digitsBE]
    exact Nat.compare_eq_lt.mpr hab

/-- Witness for claim C1 at the concrete integers 9 and 10, whose decimal
strings have different lengths. -/
theorem chainId_cmp_respects_numeric_order_witness :
    ChainId.cmp ⟨natToString 9⟩ ⟨natToString 10⟩ = .lt :=
  chainId_cmp_respects_numeric_order 9 10 (by norm_num) (by norm_num)

theorem padCmp_fill_irrelevant_aux {f g : Char} (hf : f.toNat ≤ 48)
    (hg : g.toNat ≤ 48) (m n : Nat)
    (hle : (natToString m).length ≤ (natToString n).length) :
    listCmp (padTo79 f (natToString m)) (padTo79 f (natToString n)) =
    listCmp (padTo79 g (natToString m)) (padTo79 g (natToString n)) := by
  rcases eq_or_lt_of_le hle with heq | hlt
  · rw [padCmp_eq_of_length_eq f heq, padCmp_eq_of_length_eq g heq]
  · obtain ⟨d, t', hhead, hd10, hd1⟩ := natToString_head n
    have hm1 : 1 ≤ (natToString m).length :=
      List.length_pos.mpr (natToString_ne_nil m)
    have hn2 : 2 ≤ (natToString n).length := by omega
    have hne : n ≠ 0 := by
      intro h0
      subst h0
      simp [natToString, digitsBE] at hn2
    have hd1' : 1 ≤ d := hd1 hne
    have hcf : f.toNat < (digitChar d).toNat := by
      rw [digitChar_toNat hd10]
      omega
    have hcg : g.toNat < (digitChar d).toNat := by
      rw [digitChar_toNat hd10]
      omega
    rcases Nat.lt_or_ge 79 (natToString n).length with h79 | h79
    · rcases Nat.lt_or_ge (natToString m).length 79 with hs79 | hs79
      · rw [padCmp_lt_of_long_right f hhead hcf hs79 h79,
            padCmp_lt_of_long_right g hhead hcg hs79 h79]
      · rw [padTo79_of_le f hs79, padTo79_of_le g hs79,
            padTo79_of_le f (by omega), padTo79_of_le g (by omega)]
    · rw [padCmp_lt_of_length_lt f hhead hcf hlt h79,
          padCmp_lt_of_length_lt g hhead hcg hlt h79]

theorem padCmp_fill_irrelevant {f g : Char} (hf : f.toNat ≤ 48)
    (hg : g.toNat ≤ 48) (m n : Nat) :
    listCmp (padTo79 f (natToString m)) (padTo79 f (natToString n)) =
    listCmp (padTo79 g (natToString m)) (padTo79 g (natToString n)) := by
  rcases Nat.le_total (natToString m).length (natToString n).length with h | h
  · exact padCmp_fill_irrelevant_aux hf hg m n h
  · have h1 := padCmp_fill_irrelevant_aux hf hg n m h
    rw [← listCmp_swap (padTo79 f (natToString n)) (padTo79 f (natToString m)),
        ← listCmp_swap (padTo79 g (natToString n)) (padTo79 g (natToString m)),
        h1]

/-- Claim C3, counterexample: for the ChainIds built from "09" and "9"
(both constructible, since both strings are all digits) the code's
comparison returns gt, while lexicographic comparison of the
zero-left-padded 79-character strings returns eq; the claimed equality
fails at this pair. -/
theorem chainId_cmp_zero_pad_counterexample :
    ChainId.cmp ⟨['0', '9']⟩ ⟨['9']⟩ = .gt ∧
    specZeroPadCmp ⟨['0', '9']⟩ ⟨['9']⟩ = .eq := by
  constructor <;> rfl

/-- Claim C3 (amended): the code pads with spaces, not zeros, because the
format spec `:>079` parses its `0` as a flag that string formatting
ignores; nevertheless, for every pair of ChainIds holding canonical
decimal renderings (no leading zeros), the code's comparison agrees with
lexicographic comparison of the zero-left-padded 79-character strings.
Non-canonical strings such as "09" distinguish the two. -/
theorem chainId_cmp_eq_zero_pad_on_canonical (m n : Nat) :
    ChainId.cmp ⟨natToString m⟩ ⟨natToString n⟩ =
    specZeroPadCmp ⟨natToString m⟩ ⟨natToString n⟩ :=
  padCmp_fill_irrelevant (by decide) (by decide) m n

/-! Model of JSON values and of the configuration data model. JSON values
stand in for `serde_json::Value`; numbers are modelled as integers. Maps
(`HashMap` in the source) are modelled as association lists, which fixes
an iteration order but is otherwise faithful. -/

inductive Json where
  | null : Json
  | bool : Bool → Json
  | num : Int → Json
  | str : List Char → Json
  | arr : List Json → Json
  | obj : List (List Char × Json) → Json

/-- Model of the Rust struct `Endpoint` (types.rs lines 5-11). -/
structure Endpoint where
  name : List Char
  url : List Char
  chain_id : Option ChainId
  endpoint_metadata : List (List Char × Json)

/-- Model of the Rust struct `Profile` (types.rs lines 22-26). -/
structure Profile where
  default_endpoint : Option (List Char)
  network_defaults : List (ChainId × List Char)

/-- Model of the Rust struct `RpcConfig` (types.rs lines 35-44). -/
structure RpcConfig where
  mesc_version : List Char
  default_endpoint : Option (List Char)
  network_defaults : List (ChainId × List Char)
  endpoints : List (List Char × Endpoint)
  network_names : List (List Char × ChainId)
  profiles : List (List Char × Profile)
  global_metadata : List (List Char × Json)

/-- Model of the comparator closure used by `print_endpoints`
(src/rust/crates/mesc_cli/src/printing.rs lines 34-43): each endpoint's
optional chain id defaults to the null chain id before comparison. -/
def endpointSortCmp (e1 e2 : Endpoint) : Ordering :=
  ChainId.cmp (e1.chain_id.getD ChainId.null_chain_id)
    (e2.chain_id.getD ChainId.null_chain_id)

/-! Serialization. Modelled from the spec: the serde derive impls and the
JSON text layer are not part of the sources under examination, so
`RpcConfig::serialize` (types.rs lines 61-63) is modelled at the level of
JSON values, following the standard serde semantics of the derived impls:
a struct becomes an object with one entry per field in declaration order,
`Option` becomes null or the value, a `HashMap` becomes an object, the
`ChainId` newtype becomes its underlying string, and a
`serde_json::Value` serializes to itself. Printing the value as text and
parsing the text back is the external collaborator serde_json, taken as
the identity on values. -/

def serializeOptString : Option (List Char) → Json
  | none => Json.null
  | some s => Json.str s

def serializeOptChainId : Option ChainId → Json
  | none => Json.null
  | some c => Json.str c.inner

def serializeStringMap (f : α → Json) (m : List (List Char × α)) :
    List (List Char × Json) :=
  m.map (fun kv => (kv.1, f kv.2))

def serializeChainIdMap (m : List (ChainId × List Char)) :
    List (List Char × Json) :=
  m.map (fun kv => (kv.1.inner, Json.str kv.2))

def serializeChainId (c : ChainId) : Json := Json.str c.inner

def serializeEndpoint (e : Endpoint) : Json :=
  Json.obj [("name".data, Json.str e.name),
    ("url".data, Json.str e.url),
    ("chain_id".data, serializeOptChainId e.chain_id),
    ("endpoint_metadata".data, Json.obj e.endpoint_metadata)]

def serializeProfile (p : Profile) : Json :=
  Json.obj [("default_endpoint".data, serializeOptString p.default_endpoint),
    ("network_defaults".data, Json.obj (serializeChainIdMap p.network_defaults))]

/-- Model of `RpcConfig::serialize` at the JSON value level. -/
def RpcConfig.serialize (c : RpcConfig) : Json :=
  Json.obj [("mesc_version".data, Json.str c.mesc_version),
    ("default_endpoint".data, serializeOptString c.default_endpoint),
    ("network_defaults".data, Json.obj (serializeChainIdMap c.network_defaults)),
    ("endpoints".data, Json.obj (serializeStringMap serializeEndpoint c.endpoints)),
    ("network_names".data, Json.obj (serializeStringMap serializeChainId c.network_names)),
    ("profiles".data, Json.obj (serializeStringMap serializeProfile c.profiles)),
    ("global_metadata".data, Json.obj c.global_metadata)]

/-! Deserialization, modelled from the spec following the derived serde
Deserialize impls: fields are located by name in the object (order
insensitive), a missing or ill-typed field is a failure (modelled as
`none`), `null` deserializes an `Option` as absent, and the `ChainId`
newtype deserializes from any string (the derived impl performs no digit
validation). -/

def getField (fs : List (List Char × Json)) (k : List Char) : Option Json :=
  match fs with
  | [] => none
  | (k', v) :: rest => if k' = k then some v else getField rest k

def asOptString : Json → Option (Option (List Char))
  | Json.null => some none
  | Json.str s => some (some s)
  | _ => none

def asOptChainId : Json → Option (Option ChainId)
  | Json.null => some none
  | Json.str s => some (some ⟨s⟩)
  | _ => none

def deserializeStringMap (f : Json → Option α) :
    List (List Char × Json) → Option (List (List Char × α))
  | [] => some []
  | (k, v) :: rest =>
    (f v).bind fun a =>
      (deserializeStringMap f rest).map fun r => (k, a) :: r

def deserializeChainIdMap :
    List (List Char × Json) → Option (List (ChainId × List Char))
  | [] => some []
  | (k, v) :: rest =>
    match v with
    | Json.str s => (deserializeChainIdMap rest).map fun r => (⟨k⟩, s) :: r
    | _ => none

def deserializeChainId : Json → Option ChainId
  | Json.str s => some ⟨s⟩
  | _ => none

def deserializeEndpoint (j : Json) : Option Endpoint :=
  match j with
  | Json.obj fs =>
    match getField fs ("name".data), getField fs ("url".data),
        getField fs ("chain_id".data), getField fs ("endpoint_metadata".data) with
    | some (Json.str n), some (Json.str u), some cj, some (Json.obj md) =>
      match asOptChainId cj with
      | some oc => some ⟨n, u, oc, md⟩
      | none => none
    | _, _, _, _ => none
  | _ => none

def deserializeProfile (j : Json) : Option Profile :=
  match j with
  | Json.obj fs =>
    match getField fs ("default_endpoint".data),
        getField fs ("network_defaults".data) with
    | some dj, some (Json.obj nd) =>
      match asOptString dj, deserializeChainIdMap nd with
      | some d, some n => some ⟨d, n⟩
      | _, _ => none
    | _, _ => none
  | _ => none

def deserializeRpcConfig (j : Json) : Option RpcConfig :=
  match j with
  | Json.obj fs =>
    match getField fs ("mesc_version".data), getField fs ("default_endpoint".data),
        getField fs ("network_defaults".data), getField fs ("endpoints".data),
        getField fs ("network_names".data), getField fs ("profiles".data),
        getField fs ("global_metadata".data) with
    | some (Json.str v), some dj, some (Json.obj nd), some (Json.obj ep),
        some (Json.obj nn), some (Json.obj pr), some (Json.obj gm) =>
      match asOptString dj, deserializeChainIdMap nd,
          deserializeStringMap deserializeEndpoint ep,
          deserializeStringMap deserializeChainId nn,
          deserializeStringMap deserializeProfile pr with
      | some d, some nd', some ep', some nn', some pr' =>
        some ⟨v, d, nd', ep', nn', pr', gm⟩
      | _, _, _, _, _ => none
    | _, _, _, _, _, _, _ => none
  | _ => none

/-! Round-trip lemmas. -/

theorem deserializeStringMap_roundtrip {α : Type} (f : α → Json)
    (g : Json → Option α) (h : ∀ a, g (f a) = some a)
    (m : List (List Char × α)) :
    deserializeStringMap g (serializeStringMap f m) = some m := by
  induction m with
  | nil => rfl
  | cons kv m ih =>
    obtain ⟨k, v⟩ := kv
    rw [serializeStringMap, List.map_cons, deserializeStringMap, h v]
    show (deserializeStringMap g (serializeStringMap f m)).map _ = _
    rw [ih]
    rfl

theorem deserializeChainIdMap_roundtrip (m : List (ChainId × List Char)) :
    deserializeChainIdMap (serializeChainIdMap m) = some m := by
  induction m with
  | nil => rfl
  | cons kv m ih =>
    obtain ⟨c, s⟩ := kv
    rw [serializeChainIdMap, List.map_cons, deserializeChainIdMap]
    show (deserializeChainIdMap (serializeChainIdMap m)).map _ = _
    rw [ih]
    rfl

theorem deserializeChainId_roundtrip (c : ChainId) :
    deserializeChainId (serializeChainId c) = some c := rfl

theorem deserializeEndpoint_roundtrip (e : Endpoint) :
    deserializeEndpoint (serializeEndpoint e) = some e := by
  obtain ⟨n, u, oc, md⟩ := e
  cases oc <;> rfl

theorem deserializeProfile_roundtrip (p : Profile) :
    deserializeProfile (serializeProfile p) = some p := by
  obtain ⟨d, nd⟩ := p
  have h := deserializeChainIdMap_roundtrip nd
  cases d <;>
    simp [serializeProfile, deserializeProfile, getField, serializeOptString,
      asOptString, h]

/-- Claim C4: serializing an RpcConfig and parsing the result back yields
a config equal to the original in all fields; in particular every entry
of endpoint_metadata and global_metadata is carried through verbatim
(metadata objects are serialized as themselves and extracted unchanged),
and none is dropped. -/
theorem rpcConfig_serialize_roundtrip (c : RpcConfig) :
    deserializeRpcConfig (RpcConfig.serialize c) = some c := by
  obtain ⟨v, d, nd, ep, nn, pr, gm⟩ := c
  have h1 := deserializeChainIdMap_roundtrip nd
  have h2 := deserializeStringMap_roundtrip serializeEndpoint deserializeEndpoint
    deserializeEndpoint_roundtrip ep
  have h3 := deserializeStringMap_roundtrip serializeChainId deserializeChainId
    deserializeChainId_roundtrip nn
  have h4 := deserializeStringMap_roundtrip serializeProfile deserializeProfile
    deserializeProfile_roundtrip pr
  cases d <;>
    simp [RpcConfig.serialize, deserializeRpcConfig, getField,
      serializeOptString, asOptString, h1, h2, h3, h4]

/-- Claim C9: the null chain id constant equals the ChainId obtained by
converting the unsigned integer 0, and in the print_endpoints sorting
comparator an endpoint whose chain_id is absent is ordered exactly as if
its chain id were the null chain id (on either side of the comparison). -/
theorem null_chain_id_is_zero_and_sort_default (e1 e2 : Endpoint)
    (h : e1.chain_id = none) :
    chainIdFromUint 0 = ChainId.null_chain_id ∧
    endpointSortCmp e1 e2 =
      endpointSortCmp { e1 with chain_id := some ChainId.null_chain_id } e2 ∧
    endpointSortCmp e2 e1 =
      endpointSortCmp e2 { e1 with chain_id := some ChainId.null_chain_id } := by
  refine ⟨by decide, ?_, ?_⟩ <;> simp [endpointSortCmp, h]

/-- Witness for claim C9 at concrete endpoints with absent chain ids. -/
theorem null_chain_id_is_zero_and_sort_default_witness :
    chainIdFromUint 0 = ChainId.null_chain_id ∧
    endpointSortCmp ⟨[], [], none, []⟩ ⟨[], [], none, []⟩ =
      endpointSortCmp
        { (⟨[], [], none, []⟩ : Endpoint) with
            chain_id := some ChainId.null_chain_id }
        ⟨[], [], none, []⟩ :=
  ⟨(null_chain_id_is_zero_and_sort_default ⟨[], [], none, []⟩
      ⟨[], [], none, []⟩ rfl).1,
   (null_chain_id_is_zero_and_sort_default ⟨[], [], none, []⟩
      ⟨[], [], none, []⟩ rfl).2.1⟩

end Mesc
